import Mathlib

/-!
Verification of the natural-language specification of `scripts/render_ply.py`
(a CPU fallback renderer for 3D Gaussian splat files) against a shallow
embedding of the script's core pipeline.

Modelling conventions:
* Python floats are modelled as real numbers (`ℝ`); float literals such as
  `1e-8`, `0.95`, `0.02` are modelled by the exact rationals they denote.
* `numpy` integer arrays (`astype(np.int32)`) are modelled as `ℤ` with
  truncation toward zero (`truncTZ`); int32 wraparound is not modelled.
* The script keeps parallel arrays (`pts`, `colors`, `opacity`, ...) to which
  the same boolean masks, permutations and elementwise maps are applied; we
  model one list of records per pipeline stage, which is equivalent.
* `np.percentile(a, q)` with the default linear interpolation is modelled by
  `npPercentile`; on an empty array numpy raises `IndexError`, modelled as
  `none` (turned into `RenderErr.emptyPercentile` by the driver).
* The exits that Python takes via exceptions are modelled with `Except`:
  `width / height` with `height = 0` raises `ZeroDivisionError`, and
  `np.zeros((height, width, 3))` with a negative dimension raises
  `ValueError`; the external PLY loader and PNG writer are out of scope, so
  `renderCore` consumes decoded raw records and returns the finished buffer.
-/

noncomputable section

open Real

open Classical in
/-- Discharge `Decidable` side goals classically (the embedding is over `ℝ`). -/
instance (priority := low) : ∀ (p : Prop), Decidable p := fun p => propDecidable p

/-- One raw input point, as handed over by the external `.ply` loader:
position, the three zeroth-order SH color coefficients `f_dc_*`, the stored
opacity logit, and the three log-scales `scale_*` (lines 27-45). -/
structure RawPoint where
  x : ℝ
  y : ℝ
  z : ℝ
  fdc0 : ℝ
  fdc1 : ℝ
  fdc2 : ℝ
  op : ℝ
  s0 : ℝ
  s1 : ℝ
  s2 : ℝ

/-- One decoded splat: the rows of the parallel arrays `pts`, `colors`,
`opacity`, `splat_radius` after lines 27-45. -/
structure Splat where
  x : ℝ
  y : ℝ
  z : ℝ
  color : Fin 3 → ℝ
  opacity : ℝ
  radius : ℝ

/-- SH DC normalization constant `C0` (line 30). -/
def C0 : ℝ := 0.28209479177387814

/-- `np.clip(v, lo, hi)` (numpy computes `minimum(maximum(v, lo), hi)`). -/
def clip (v lo hi : ℝ) : ℝ := min hi (max lo v)

/-- Ascending sort of three reals, modelling `np.sort` on a row of the
3-column `scales` array (line 44). -/
def sort3 (a b c : ℝ) : ℝ × ℝ × ℝ :=
  if a ≤ b then
    if b ≤ c then (a, b, c)
    else if a ≤ c then (a, c, b)
    else (c, a, b)
  else
    if a ≤ c then (b, a, c)
    else if b ≤ c then (b, c, a)
    else (c, b, a)

/-- Attribute decoder (lines 27-45): SH DC coefficients to clipped RGB,
logistic opacity, and splat radius = average of the two largest exponentiated
log-scales (`(scales[:, 1] + scales[:, 2]) / 2` after an ascending sort). -/
def decode (p : RawPoint) : Splat :=
  { x := p.x
    y := p.y
    z := p.z
    color := fun ch => clip (0.5 + C0 * ![p.fdc0, p.fdc1, p.fdc2] ch) 0 1
    opacity := 1 / (1 + exp (-p.op))
    radius :=
      let s := sort3 (exp p.s0) (exp p.s1) (exp p.s2)
      (s.2.1 + s.2.2) / 2 }

/-- Visibility filter (lines 47-50): `mask = opacity > 0.02` applied to all
parallel arrays by boolean indexing, which preserves relative order. -/
def visFilter (l : List Splat) : List Splat :=
  l.filter fun s => decide (0.02 < s.opacity)

/-- World-space window of the viewport framer: `x_min, x_max, y_min, y_max`. -/
structure Bounds where
  xmin : ℝ
  xmax : ℝ
  ymin : ℝ
  ymax : ℝ

/-- The epsilon `1e-8` used to guard divisions (lines 81, 96, 102, 103). -/
def eps : ℝ := 1 / 10 ^ 8

/-- Aspect-ratio correction step of the viewport framer (lines 78-93):
if `scene_aspect > image_aspect` grow the vertical bounds symmetrically to
`new_h = scene_w / image_aspect`, otherwise grow the horizontal bounds
symmetrically to `new_w = scene_h * image_aspect`. -/
def fixAspect (w h : ℝ) (b : Bounds) : Bounds :=
  let sceneW := b.xmax - b.xmin
  let sceneH := b.ymax - b.ymin
  let sceneAspect := sceneW / (sceneH + eps)
  let imageAspect := w / h
  if imageAspect < sceneAspect then
    let newH := sceneW / imageAspect
    let extra := (newH - sceneH) / 2
    { xmin := b.xmin, xmax := b.xmax, ymin := b.ymin - extra, ymax := b.ymax + extra }
  else
    let newW := sceneH * imageAspect
    let extra := (newW - sceneW) / 2
    { xmin := b.xmin - extra, xmax := b.xmax + extra, ymin := b.ymin, ymax := b.ymax }

/-- `astype(np.int32)` on a float: truncation toward zero. -/
def truncTZ (v : ℝ) : ℤ := if 0 ≤ v then ⌊v⌋ else ⌈v⌉

/-- Pixel radius of a splat (line 99):
`np.clip(splat_radius * px_per_unit, 1, 12).astype(np.int32)`. -/
def pixelRadius (radius ppu : ℝ) : ℤ := truncTZ (clip (radius * ppu) 1 12)

/-- One projected splat: a row of the arrays `px, py, pixel_radii, opacity,
colors, z` after lines 96-110, i.e. the compositor's input. -/
structure PSplat where
  cx : ℤ
  cy : ℤ
  r : ℤ
  a : ℝ
  c : Fin 3 → ℝ
  z : ℝ

/-- Projector (lines 96-103): linear world-to-pixel mapping with truncation
toward zero, and pixel radius via `pixelRadius`. -/
def project (w h : ℤ) (b : Bounds) (s : Splat) : PSplat :=
  let ppu := ((w : ℝ) - 1) / (b.xmax - b.xmin + eps)
  { cx := truncTZ ((s.x - b.xmin) / (b.xmax - b.xmin + eps) * ((w : ℝ) - 1))
    cy := truncTZ ((s.y - b.ymin) / (b.ymax - b.ymin + eps) * ((h : ℝ) - 1))
    r := pixelRadius s.radius ppu
    a := s.opacity
    c := s.color
    z := s.z }

/- ------------------------------------------------------------------ -/
/- Supporting lemmas for the decoder, filter, framer and projector     -/
/- ------------------------------------------------------------------ -/

lemma clip01_nonneg (v : ℝ) : 0 ≤ clip v 0 1 :=
  le_min (by norm_num) (le_max_left 0 v)

lemma clip01_le_one (v : ℝ) : clip v 0 1 ≤ 1 := min_le_left 1 _

lemma sort3_two_largest (a b c : ℝ) :
    (sort3 a b c).2.1 + (sort3 a b c).2.2 = a + b + c - min a (min b c) := by
  unfold sort3
  split_ifs with h1 h2 h3 h4 h5
  · rw [min_eq_left h2, min_eq_left h1]; ring
  · rw [min_eq_right (le_of_not_le h2), min_eq_left h3]; ring
  · rw [min_eq_right (le_of_not_le h2), min_eq_right (le_of_not_le h3)]; ring
  · rw [min_eq_left (le_trans (le_of_not_le h1) h4), min_eq_right (le_of_not_le h1)]; ring
  · rw [min_eq_left h5, min_eq_right (le_of_not_le h1)]; ring
  · rw [min_eq_right (le_of_not_le h5),
      min_eq_right (le_trans (le_of_not_le h5) (le_of_not_le h1))]; ring

lemma decode_opacity_bounds (p : RawPoint) :
    0 ≤ (decode p).opacity ∧ (decode p).opacity ≤ 1 := by
  constructor
  · have h := exp_pos (-p.op)
    show (0 : ℝ) ≤ 1 / (1 + exp (-p.op))
    positivity
  · have h := exp_pos (-p.op)
    show (1 : ℝ) / (1 + exp (-p.op)) ≤ 1
    rw [div_le_one (by linarith)]
    linarith

lemma decode_color_bounds (p : RawPoint) (ch : Fin 3) :
    0 ≤ (decode p).color ch ∧ (decode p).color ch ≤ 1 :=
  ⟨clip01_nonneg _, clip01_le_one _⟩

/- ------------------------------------------------------------------ -/
/- C6: attribute decoder                                               -/
/- ------------------------------------------------------------------ -/

/-- C6: the attribute decoder yields color channels
`clip(0.5 + C0 * coeff, 0, 1)`, opacity `1 / (1 + exp (-logit))`, and a
radius equal to the average of the two largest exponentiated log-scales
(equivalently, half of their sum minus the smallest); consequently color and
opacity always land in `[0, 1]` and the radius is nonnegative. -/
theorem decode_attribute_spec (p : RawPoint) :
    (∀ ch, (decode p).color ch = clip (0.5 + C0 * ![p.fdc0, p.fdc1, p.fdc2] ch) 0 1) ∧
    (decode p).opacity = 1 / (1 + exp (-p.op)) ∧
    (∀ ch, 0 ≤ (decode p).color ch ∧ (decode p).color ch ≤ 1) ∧
    (0 ≤ (decode p).opacity ∧ (decode p).opacity ≤ 1) ∧
    2 * (decode p).radius =
      exp p.s0 + exp p.s1 + exp p.s2 - min (exp p.s0) (min (exp p.s1) (exp p.s2)) ∧
    0 ≤ (decode p).radius := by
  have hrad : 2 * (decode p).radius =
      exp p.s0 + exp p.s1 + exp p.s2 - min (exp p.s0) (min (exp p.s1) (exp p.s2)) := by
    have h := sort3_two_largest (exp p.s0) (exp p.s1) (exp p.s2)
    simp only [decode]
    rw [← h]; ring
  refine ⟨fun ch => rfl, rfl, fun ch => decode_color_bounds p ch, decode_opacity_bounds p,
    hrad, ?_⟩
  · have h1 := min_le_left (exp p.s0) (min (exp p.s1) (exp p.s2))
    have h2 := exp_pos p.s1
    have h3 := exp_pos p.s2
    linarith

/- ------------------------------------------------------------------ -/
/- C5: visibility filter                                               -/
/- ------------------------------------------------------------------ -/

/-- C5: the visibility filter keeps exactly the splats with decoded opacity
strictly above the fixed threshold `0.02` (dropping those with
`opacity ≤ 0.02`) and the survivors form a sublist of the input, i.e. their
relative order is preserved. -/
theorem visFilter_keeps_exactly_above_threshold (l : List Splat) :
    (visFilter l).Sublist l ∧
    ∀ s, s ∈ visFilter l ↔ s ∈ l ∧ (0.02 : ℝ) < s.opacity := by
  constructor
  · exact List.filter_sublist l
  · intro s
    simp [visFilter, List.mem_filter]

/- ------------------------------------------------------------------ -/
/- C7: viewport framer aspect ratio                                    -/
/- ------------------------------------------------------------------ -/

/-- C7 (amended): after the aspect-correction step of the viewport framer,
the world window's aspect ratio `(xmax - xmin) / (ymax - ymin)` equals
`w / h` exactly, for positive image dimensions and a vertical world span
that is positive (a non-degenerate point set). -/
theorem fixAspect_ratio_exact (w h : ℝ) (b : Bounds)
    (hw : 0 < w) (hh : 0 < h) (hy : b.ymin < b.ymax) :
    ((fixAspect w h b).xmax - (fixAspect w h b).xmin) /
      ((fixAspect w h b).ymax - (fixAspect w h b).ymin) = w / h := by
  have hia : 0 < w / h := div_pos hw hh
  have hsh : 0 < b.ymax - b.ymin + eps := by
    have : (0 : ℝ) < eps := by norm_num [eps]
    linarith
  simp only [fixAspect]
  split_ifs with hcase
  · -- vertical growth: the new vertical span is `sceneW / imageAspect`
    have hsw : 0 < b.xmax - b.xmin := by
      have h2 : 0 < (b.xmax - b.xmin) / (b.ymax - b.ymin + eps) := lt_trans hia hcase
      by_contra hle
      push_neg at hle
      have : (b.xmax - b.xmin) / (b.ymax - b.ymin + eps) ≤ 0 :=
        div_nonpos_of_nonpos_of_nonneg hle hsh.le
      linarith
    have hspan : b.ymax + ((b.xmax - b.xmin) / (w / h) - (b.ymax - b.ymin)) / 2 -
        (b.ymin - ((b.xmax - b.xmin) / (w / h) - (b.ymax - b.ymin)) / 2) =
        (b.xmax - b.xmin) / (w / h) := by ring
    simp only [hspan]
    rw [div_div_eq_mul_div, mul_comm, mul_div_assoc, div_self hsw.ne', mul_one]
  · -- horizontal growth: the new horizontal span is `sceneH * imageAspect`
    have hspan : b.xmax + ((b.ymax - b.ymin) * (w / h) - (b.xmax - b.xmin)) / 2 -
        (b.xmin - ((b.ymax - b.ymin) * (w / h) - (b.xmax - b.xmin)) / 2) =
        (b.ymax - b.ymin) * (w / h) := by ring
    simp only [hspan]
    rw [mul_comm, mul_div_assoc]
    rw [div_self (by linarith : b.ymax - b.ymin ≠ 0), mul_one]

/-- C7 witness: the amended aspect theorem applied to the window
`(0, 1) × (0, 1)` with a 2 × 1 image. -/
theorem fixAspect_ratio_exact_witness :
    (0 : ℝ) < 2 ∧ (0 : ℝ) < 1 ∧ (Bounds.mk 0 1 0 1).ymin < (Bounds.mk 0 1 0 1).ymax ∧
    ((fixAspect 2 1 (Bounds.mk 0 1 0 1)).xmax - (fixAspect 2 1 (Bounds.mk 0 1 0 1)).xmin) /
      ((fixAspect 2 1 (Bounds.mk 0 1 0 1)).ymax - (fixAspect 2 1 (Bounds.mk 0 1 0 1)).ymin) =
      2 / 1 :=
  ⟨by norm_num, by norm_num, by norm_num,
    fixAspect_ratio_exact 2 1 (Bounds.mk 0 1 0 1) (by norm_num) (by norm_num) (by norm_num)⟩

/- The C7 counterexample `fixAspect_shrinks_x_axis` appears after the
pipeline section: it derives the offending world window from an explicit
two-point scene through the percentile-and-padding stage. -/

/- ------------------------------------------------------------------ -/
/- C10: projector pixel radius                                         -/
/- ------------------------------------------------------------------ -/

/-- C10: the pixel radius of every projected splat is an integer between 1
and 12, and equals the floor (= truncation toward zero, as the clipped value
is positive) of `radius * px_per_unit` clipped to `[1, 12]`; in particular a
splat whose world radius maps to `1.9` pixels gets pixel radius `1`. -/
theorem project_pixel_radius_bounds (w h : ℤ) (b : Bounds) (s : Splat) :
    1 ≤ (project w h b s).r ∧ (project w h b s).r ≤ 12 ∧
    (project w h b s).r =
      ⌊clip (s.radius * (((w : ℝ) - 1) / (b.xmax - b.xmin + eps))) 1 12⌋ := by
  set v : ℝ := s.radius * (((w : ℝ) - 1) / (b.xmax - b.xmin + eps)) with hv
  have hlo : (1 : ℝ) ≤ clip v 1 12 := le_min (by norm_num) (le_max_left 1 v)
  have hhi : clip v 1 12 ≤ 12 := min_le_left 12 _
  have hr : (project w h b s).r = ⌊clip v 1 12⌋ := by
    show truncTZ (clip v 1 12) = ⌊clip v 1 12⌋
    rw [truncTZ, if_pos (by linarith)]
  refine ⟨?_, ?_, hr⟩
  · rw [hr]
    exact_mod_cast Int.le_floor.mpr (by exact_mod_cast hlo)
  · rw [hr]
    calc ⌊clip v 1 12⌋ ≤ ⌊(12 : ℝ)⌋ := Int.floor_le_floor hhi
    _ = 12 := by norm_num

/- ------------------------------------------------------------------ -/
/- Compositor (lines 118-166)                                          -/
/- ------------------------------------------------------------------ -/

/-- Render target (lines 119-120): color accumulator `img` and alpha
accumulator `alpha_buf`, both zero-initialized; indexed `[y, x]` like the
numpy arrays, modelled as total functions on `ℤ` (the compositing loop only
ever touches indices inside `[0, h) × [0, w)`). -/
structure Canvas where
  img : ℤ → ℤ → Fin 3 → ℝ
  alpha : ℤ → ℤ → ℝ

/-- `np.zeros` initialization of both accumulators. -/
def Canvas.init : Canvas := ⟨fun _ _ _ => 0, fun _ _ => 0⟩

/-- Gaussian sigma (line 149): `sigma = r / 2.0 + 0.5`. -/
def gaussSigma (r : ℤ) : ℝ := (r : ℝ) / 2 + 0.5

/-- Gaussian falloff weight (lines 144-150):
`exp(-dist_sq / (2.0 * sigma * sigma))` at offset `(dy, dx)` from the splat
center. -/
def gauss (r dy dx : ℤ) : ℝ :=
  exp (-((dx : ℝ) * dx + (dy : ℝ) * dy) / (2 * gaussSigma r * gaussSigma r))

/-- Per-pixel effective alpha contribution (lines 152-155):
`contrib * remaining = opacity * gauss * (1 - alpha_buf[y, x])`, evaluated on
the canvas state *before* this splat's update (the code snapshots
`remaining` before writing). -/
def effective (s : PSplat) (cv : Canvas) (y x : ℤ) : ℝ :=
  s.a * gauss s.r (y - s.cy) (x - s.cx) * (1 - cv.alpha y x)

/-- Pixel `(y, x)` lies in the splat's bounding box clipped to the canvas
(lines 131-135): `[max 0 (cy-r), min h (cy+r+1)) × [max 0 (cx-r), min w (cx+r+1))`. -/
def inBox (w h : ℤ) (s : PSplat) (y x : ℤ) : Prop :=
  max 0 (s.cy - s.r) ≤ y ∧ y < min h (s.cy + s.r + 1) ∧
  max 0 (s.cx - s.r) ≤ x ∧ x < min w (s.cx + s.r + 1)

/-- One iteration of the compositing loop (lines 125-166): skip if the
clipped bounding box is empty (line 137); skip if the center pixel is on
canvas with `alpha_buf > 0.95` (lines 140-142); skip if no box pixel passes
the `effective > 0.001` threshold (lines 158-160); otherwise add
`color * effective` to `img` and `effective` to `alpha_buf` at every box
pixel passing the threshold (lines 162-166). -/
def splatStep (w h : ℤ) (cv : Canvas) (s : PSplat) : Canvas :=
  if min h (s.cy + s.r + 1) ≤ max 0 (s.cy - s.r) ∨
      min w (s.cx + s.r + 1) ≤ max 0 (s.cx - s.r) then cv
  else if 0 ≤ s.cy ∧ s.cy < h ∧ 0 ≤ s.cx ∧ s.cx < w ∧ 0.95 < cv.alpha s.cy s.cx then cv
  else if ∃ y x, inBox w h s y x ∧ 0.001 < effective s cv y x then
    { img := fun y x ch =>
        if inBox w h s y x ∧ 0.001 < effective s cv y x
        then cv.img y x ch + s.c ch * effective s cv y x
        else cv.img y x ch
      alpha := fun y x =>
        if inBox w h s y x ∧ 0.001 < effective s cv y x
        then cv.alpha y x + effective s cv y x
        else cv.alpha y x }
  else cv

/-- The same loop iteration with the early-exit "already opaque" check of
lines 140-142 removed: the reference compositor that "always evaluates the
full update" from the spec's design note (section 9). -/
def splatStepNC (w h : ℤ) (cv : Canvas) (s : PSplat) : Canvas :=
  if min h (s.cy + s.r + 1) ≤ max 0 (s.cy - s.r) ∨
      min w (s.cx + s.r + 1) ≤ max 0 (s.cx - s.r) then cv
  else if ∃ y x, inBox w h s y x ∧ 0.001 < effective s cv y x then
    { img := fun y x ch =>
        if inBox w h s y x ∧ 0.001 < effective s cv y x
        then cv.img y x ch + s.c ch * effective s cv y x
        else cv.img y x ch
      alpha := fun y x =>
        if inBox w h s y x ∧ 0.001 < effective s cv y x
        then cv.alpha y x + effective s cv y x
        else cv.alpha y x }
  else cv

/-- The full compositing loop over the depth-sorted splat list. -/
def compose (w h : ℤ) (l : List PSplat) : Canvas :=
  l.foldl (splatStep w h) Canvas.init

/-- The compositing loop without the early-exit check. -/
def composeNC (w h : ℤ) (l : List PSplat) : Canvas :=
  l.foldl (splatStepNC w h) Canvas.init

/-- Finalizer (line 168): `(np.clip(img, 0, 1) * 255).astype(np.uint8)` at
one pixel and channel. -/
def finalizePix (cv : Canvas) (y x : ℤ) (ch : Fin 3) : ℤ :=
  truncTZ (clip (cv.img y x ch) 0 1 * 255)

/- ------------------------------------------------------------------ -/
/- Compositor invariants                                               -/
/- ------------------------------------------------------------------ -/

lemma gauss_pos (r dy dx : ℤ) : 0 < gauss r dy dx := exp_pos _

lemma gauss_le_one (r dy dx : ℤ) : gauss r dy dx ≤ 1 := by
  rw [gauss]
  calc exp (-((dx : ℝ) * dx + (dy : ℝ) * dy) / (2 * gaussSigma r * gaussSigma r)) ≤ exp 0 := by
        apply exp_le_exp.mpr
        apply div_nonpos_of_nonpos_of_nonneg
        · nlinarith [sq_nonneg ((dx : ℝ)), sq_nonneg ((dy : ℝ))]
        · nlinarith [sq_nonneg (gaussSigma r)]
  _ = 1 := exp_zero

lemma effective_nonneg (s : PSplat) (cv : Canvas) (y x : ℤ)
    (ha : 0 ≤ s.a) (halpha : cv.alpha y x ≤ 1) : 0 ≤ effective s cv y x :=
  mul_nonneg (mul_nonneg ha (gauss_pos _ _ _).le) (by linarith)

lemma effective_le_remaining (s : PSplat) (cv : Canvas) (y x : ℤ)
    (_ha0 : 0 ≤ s.a) (ha1 : s.a ≤ 1) (halpha : cv.alpha y x ≤ 1) :
    effective s cv y x ≤ 1 - cv.alpha y x := by
  rw [effective]
  have hg0 := gauss_pos s.r (y - s.cy) (x - s.cx)
  have hg1 := gauss_le_one s.r (y - s.cy) (x - s.cx)
  have hag : s.a * gauss s.r (y - s.cy) (x - s.cx) ≤ 1 := mul_le_one₀ ha1 hg0.le hg1
  have := mul_le_mul_of_nonneg_right hag (by linarith : (0 : ℝ) ≤ 1 - cv.alpha y x)
  linarith

/-- The canvas invariant: every alpha cell is in `[0, 1]` and every color
cell is between `0` and the alpha cell of its pixel. -/
def CanvasInv (cv : Canvas) : Prop :=
  ∀ y x, (0 ≤ cv.alpha y x ∧ cv.alpha y x ≤ 1) ∧
    ∀ ch, 0 ≤ cv.img y x ch ∧ cv.img y x ch ≤ cv.alpha y x

lemma canvasInv_init : CanvasInv Canvas.init :=
  fun _ _ => ⟨⟨le_refl 0, zero_le_one⟩, fun _ => ⟨le_refl 0, le_refl 0⟩⟩

lemma canvasInv_splatStep (w h : ℤ) (cv : Canvas) (s : PSplat)
    (ha : 0 ≤ s.a ∧ s.a ≤ 1) (hc : ∀ ch, 0 ≤ s.c ch ∧ s.c ch ≤ 1)
    (hcv : CanvasInv cv) : CanvasInv (splatStep w h cv s) := by
  rw [splatStep]
  split_ifs with h1 h2 h3
  · exact hcv
  · exact hcv
  · intro y x
    obtain ⟨⟨ha0, ha1⟩, him⟩ := hcv y x
    have he0 := effective_nonneg s cv y x ha.1 ha1
    have he1 := effective_le_remaining s cv y x ha.1 ha.2 ha1
    dsimp only
    split_ifs with hp
    · refine ⟨⟨by linarith, by linarith⟩, fun ch => ?_⟩
      obtain ⟨hc0, hc1⟩ := hc ch
      obtain ⟨hi0, hi1⟩ := him ch
      have hm0 : 0 ≤ s.c ch * effective s cv y x := mul_nonneg hc0 he0
      have hm1 : s.c ch * effective s cv y x ≤ 1 * effective s cv y x :=
        mul_le_mul_of_nonneg_right hc1 he0
      exact ⟨by linarith, by linarith⟩
    · exact ⟨⟨ha0, ha1⟩, him⟩
  · exact hcv

lemma canvasInv_foldl (w h : ℤ) : ∀ (l : List PSplat) (cv : Canvas),
    (∀ s ∈ l, 0 ≤ s.a ∧ s.a ≤ 1) → (∀ s ∈ l, ∀ ch, 0 ≤ s.c ch ∧ s.c ch ≤ 1) →
    CanvasInv cv → CanvasInv (l.foldl (splatStep w h) cv) := by
  intro l
  induction l with
  | nil => exact fun cv _ _ hcv => hcv
  | cons s t ih =>
    intro cv hop hcol hcv
    exact ih _ (fun s' hs' => hop s' (List.mem_cons_of_mem _ hs'))
      (fun s' hs' => hcol s' (List.mem_cons_of_mem _ hs'))
      (canvasInv_splatStep w h cv s (hop s (List.mem_cons_self s t))
        (hcol s (List.mem_cons_self s t)) hcv)

/-- The alpha half of the invariant needs no assumption on the colors: the
alpha accumulator's update never reads `img` or the splat color. -/
lemma alphaInv_splatStep (w h : ℤ) (cv : Canvas) (s : PSplat)
    (ha : 0 ≤ s.a ∧ s.a ≤ 1)
    (hcv : ∀ y x, 0 ≤ cv.alpha y x ∧ cv.alpha y x ≤ 1) :
    ∀ y x, 0 ≤ (splatStep w h cv s).alpha y x ∧ (splatStep w h cv s).alpha y x ≤ 1 := by
  rw [splatStep]
  split_ifs with h1 h2 h3
  · exact hcv
  · exact hcv
  · intro y x
    obtain ⟨ha0, ha1⟩ := hcv y x
    have he0 := effective_nonneg s cv y x ha.1 ha1
    have he1 := effective_le_remaining s cv y x ha.1 ha.2 ha1
    dsimp only
    split_ifs with hp
    · exact ⟨by linarith, by linarith⟩
    · exact ⟨ha0, ha1⟩
  · exact hcv

lemma alphaInv_foldl (w h : ℤ) : ∀ (l : List PSplat) (cv : Canvas),
    (∀ s ∈ l, 0 ≤ s.a ∧ s.a ≤ 1) →
    (∀ y x, 0 ≤ cv.alpha y x ∧ cv.alpha y x ≤ 1) →
    ∀ y x, 0 ≤ (l.foldl (splatStep w h) cv).alpha y x ∧
      (l.foldl (splatStep w h) cv).alpha y x ≤ 1 := by
  intro l
  induction l with
  | nil => exact fun cv _ hcv => hcv
  | cons s t ih =>
    intro cv hop hcv
    exact ih _ (fun s' hs' => hop s' (List.mem_cons_of_mem _ hs'))
      (alphaInv_splatStep w h cv s (hop s (List.mem_cons_self s t)) hcv)

/- ------------------------------------------------------------------ -/
/- C1: the alpha accumulator stays in [0, 1]                           -/
/- ------------------------------------------------------------------ -/

/-- C1: for every splat list whose opacities are in `[0, 1]` (which the
decoder guarantees) and at every point during compositing — i.e. after
processing any prefix of the (arbitrarily ordered) list — every cell of the
alpha accumulator stays within `[0, 1]`: each update adds
`effective = opacity * gauss * (1 - alpha_buf[pixel])`, which never pushes a
cell past 1. -/
theorem alpha_buf_in_unit_interval (w h : ℤ) (l : List PSplat)
    (hop : ∀ s ∈ l, 0 ≤ s.a ∧ s.a ≤ 1) :
    ∀ (n : ℕ) (y x : ℤ), 0 ≤ (compose w h (l.take n)).alpha y x ∧
      (compose w h (l.take n)).alpha y x ≤ 1 := by
  intro n y x
  exact alphaInv_foldl w h (l.take n) Canvas.init
    (fun s hs => hop s (List.take_subset n l hs))
    (fun _ _ => ⟨le_refl 0, zero_le_one⟩) y x

/-- Concrete splat used by the invariant witnesses: center `(0, 0)`, pixel
radius 1, opacity `1/2`, pure white color, depth 0. -/
def demoSplat : PSplat :=
  { cx := 0, cy := 0, r := 1, a := 1 / 2, c := fun _ => 1, z := 0 }

/-- C1 witness: the alpha bound applied to a concrete one-splat list on a
2 × 2 canvas. -/
theorem alpha_buf_in_unit_interval_witness :
    (∀ s ∈ [demoSplat], 0 ≤ s.a ∧ s.a ≤ 1) ∧
    (0 ≤ (compose 2 2 ([demoSplat].take 1)).alpha 0 0 ∧
      (compose 2 2 ([demoSplat].take 1)).alpha 0 0 ≤ 1) := by
  have hop : ∀ s ∈ [demoSplat], 0 ≤ s.a ∧ s.a ≤ 1 := by
    intro s hs
    rw [List.mem_singleton] at hs
    subst hs
    constructor <;> norm_num [demoSplat]
  exact ⟨hop, alpha_buf_in_unit_interval 2 2 [demoSplat] hop 1 0 0⟩

/- ------------------------------------------------------------------ -/
/- C9: color cells bounded by the alpha cell                           -/
/- ------------------------------------------------------------------ -/

/-- C9: when opacities and colors are in `[0, 1]` (which the decoder
guarantees), at every pixel and at every point during compositing each
channel of the color accumulator is bounded by the alpha accumulator of that
pixel, which is bounded by 1 — so final pre-clamp colors never exceed 1. -/
theorem img_le_alpha_le_one (w h : ℤ) (l : List PSplat)
    (hop : ∀ s ∈ l, 0 ≤ s.a ∧ s.a ≤ 1)
    (hcol : ∀ s ∈ l, ∀ ch, 0 ≤ s.c ch ∧ s.c ch ≤ 1) :
    ∀ (n : ℕ) (y x : ℤ) (ch : Fin 3),
      0 ≤ (compose w h (l.take n)).img y x ch ∧
      (compose w h (l.take n)).img y x ch ≤ (compose w h (l.take n)).alpha y x ∧
      (compose w h (l.take n)).alpha y x ≤ 1 := by
  intro n y x ch
  have h := canvasInv_foldl w h (l.take n) Canvas.init
    (fun s hs => hop s (List.take_subset n l hs))
    (fun s hs => hcol s (List.take_subset n l hs))
    canvasInv_init y x
  exact ⟨(h.2 ch).1, (h.2 ch).2, h.1.2⟩

/-- C9 witness: the color-vs-alpha bound applied to a concrete one-splat
list on a 2 × 2 canvas. -/
theorem img_le_alpha_le_one_witness :
    (∀ s ∈ [demoSplat], 0 ≤ s.a ∧ s.a ≤ 1) ∧
    (∀ s ∈ [demoSplat], ∀ ch, 0 ≤ s.c ch ∧ s.c ch ≤ 1) ∧
    (0 ≤ (compose 2 2 ([demoSplat].take 1)).img 0 0 0 ∧
      (compose 2 2 ([demoSplat].take 1)).img 0 0 0 ≤
        (compose 2 2 ([demoSplat].take 1)).alpha 0 0 ∧
      (compose 2 2 ([demoSplat].take 1)).alpha 0 0 ≤ 1) := by
  have hop : ∀ s ∈ [demoSplat], 0 ≤ s.a ∧ s.a ≤ 1 := by
    intro s hs
    rw [List.mem_singleton] at hs
    subst hs
    constructor <;> norm_num [demoSplat]
  have hcol : ∀ s ∈ [demoSplat], ∀ ch, 0 ≤ s.c ch ∧ s.c ch ≤ 1 := by
    intro s hs ch
    rw [List.mem_singleton] at hs
    subst hs
    constructor <;> norm_num [demoSplat]
  exact ⟨hop, hcol, img_le_alpha_le_one 2 2 [demoSplat] hop hcol 1 0 0 0⟩

/- ------------------------------------------------------------------ -/
/- Pointwise evaluation lemmas for the compositing step                -/
/- ------------------------------------------------------------------ -/

lemma gauss_center (r : ℤ) : gauss r 0 0 = 1 := by
  simp [gauss]

lemma splatStep_skip_opaque (w h : ℤ) (cv : Canvas) (s : PSplat)
    (h2 : 0 ≤ s.cy ∧ s.cy < h ∧ 0 ≤ s.cx ∧ s.cx < w ∧ 0.95 < cv.alpha s.cy s.cx) :
    splatStep w h cv s = cv := by
  by_cases hb : (min h (s.cy + s.r + 1) ≤ max 0 (s.cy - s.r) ∨
      min w (s.cx + s.r + 1) ≤ max 0 (s.cx - s.r))
  · rw [splatStep, if_pos hb]
  · rw [splatStep, if_neg hb, if_pos h2]

lemma splatStep_alpha_update (w h : ℤ) (cv : Canvas) (s : PSplat) (y x : ℤ)
    (hbox : ¬(min h (s.cy + s.r + 1) ≤ max 0 (s.cy - s.r) ∨
      min w (s.cx + s.r + 1) ≤ max 0 (s.cx - s.r)))
    (hop : ¬(0 ≤ s.cy ∧ s.cy < h ∧ 0 ≤ s.cx ∧ s.cx < w ∧ 0.95 < cv.alpha s.cy s.cx))
    (hp : inBox w h s y x ∧ 0.001 < effective s cv y x) :
    (splatStep w h cv s).alpha y x = cv.alpha y x + effective s cv y x := by
  rw [splatStep, if_neg hbox, if_neg hop, if_pos ⟨y, x, hp⟩]
  dsimp only
  rw [if_pos hp]

lemma splatStep_img_update (w h : ℤ) (cv : Canvas) (s : PSplat) (y x : ℤ) (ch : Fin 3)
    (hbox : ¬(min h (s.cy + s.r + 1) ≤ max 0 (s.cy - s.r) ∨
      min w (s.cx + s.r + 1) ≤ max 0 (s.cx - s.r)))
    (hop : ¬(0 ≤ s.cy ∧ s.cy < h ∧ 0 ≤ s.cx ∧ s.cx < w ∧ 0.95 < cv.alpha s.cy s.cx))
    (hp : inBox w h s y x ∧ 0.001 < effective s cv y x) :
    (splatStep w h cv s).img y x ch = cv.img y x ch + s.c ch * effective s cv y x := by
  rw [splatStep, if_neg hbox, if_neg hop, if_pos ⟨y, x, hp⟩]
  dsimp only
  rw [if_pos hp]

lemma splatStepNC_alpha_update (w h : ℤ) (cv : Canvas) (s : PSplat) (y x : ℤ)
    (hbox : ¬(min h (s.cy + s.r + 1) ≤ max 0 (s.cy - s.r) ∨
      min w (s.cx + s.r + 1) ≤ max 0 (s.cx - s.r)))
    (hp : inBox w h s y x ∧ 0.001 < effective s cv y x) :
    (splatStepNC w h cv s).alpha y x = cv.alpha y x + effective s cv y x := by
  rw [splatStepNC, if_neg hbox, if_pos ⟨y, x, hp⟩]
  dsimp only
  rw [if_pos hp]

lemma splatStepNC_img_update (w h : ℤ) (cv : Canvas) (s : PSplat) (y x : ℤ) (ch : Fin 3)
    (hbox : ¬(min h (s.cy + s.r + 1) ≤ max 0 (s.cy - s.r) ∨
      min w (s.cx + s.r + 1) ≤ max 0 (s.cx - s.r)))
    (hp : inBox w h s y x ∧ 0.001 < effective s cv y x) :
    (splatStepNC w h cv s).img y x ch = cv.img y x ch + s.c ch * effective s cv y x := by
  rw [splatStepNC, if_neg hbox, if_pos ⟨y, x, hp⟩]
  dsimp only
  rw [if_pos hp]

/- ------------------------------------------------------------------ -/
/- C2: the early-exit check versus the full compositor                 -/
/- ------------------------------------------------------------------ -/

/-- C2 (amended): on any single-splat input the early-exit check never
fires (the zero-initialized alpha buffer cannot exceed 0.95), so the
compositor with the check agrees with the compositor that always evaluates
the full update. -/
theorem compose_single_splat_eq (w h : ℤ) (s : PSplat) :
    compose w h [s] = composeNC w h [s] := by
  have hno : ¬(0 ≤ s.cy ∧ s.cy < h ∧ 0 ≤ s.cx ∧ s.cx < w ∧
      0.95 < Canvas.init.alpha s.cy s.cx) := by
    intro hcon
    have h5 := hcon.2.2.2.2
    norm_num [Canvas.init] at h5
  show splatStep w h Canvas.init s = splatStepNC w h Canvas.init s
  by_cases hb : (min h (s.cy + s.r + 1) ≤ max 0 (s.cy - s.r) ∨
      min w (s.cx + s.r + 1) ≤ max 0 (s.cx - s.r))
  · rw [splatStep, splatStepNC, if_pos hb, if_pos hb]
  · rw [splatStep, splatStepNC, if_neg hb, if_neg hb, if_neg hno]

/-- First splat of the C2 counterexample: once composited on a 1 × 1 canvas
it drives `alpha_buf[0, 0]` to `0.96 > 0.95`; its color is black. -/
def cexA : PSplat := { cx := 0, cy := 0, r := 1, a := 96 / 100, c := fun _ => 0, z := 0 }

/-- Second splat of the C2 counterexample: same center pixel, white color;
without the early exit it would still contribute
`0.96 * (1 - 0.96) = 0.0384 > 0.001` there. -/
def cexB : PSplat := { cx := 0, cy := 0, r := 1, a := 96 / 100, c := fun _ => 1, z := 0 }

lemma cex_box_nonempty : ¬(min 1 (cexA.cy + cexA.r + 1) ≤ max 0 (cexA.cy - cexA.r) ∨
    min 1 (cexA.cx + cexA.r + 1) ≤ max 0 (cexA.cx - cexA.r)) := by
  norm_num [cexA]

lemma cex_inBox : inBox 1 1 cexA 0 0 := by
  refine ⟨?_, ?_, ?_, ?_⟩ <;> norm_num [cexA]

lemma cex_effA : effective cexA Canvas.init 0 0 = 96 / 100 := by
  rw [effective]
  norm_num [cexA, Canvas.init, gauss_center]

lemma cex_stepA_alpha : (splatStep 1 1 Canvas.init cexA).alpha 0 0 = 96 / 100 := by
  rw [splatStep_alpha_update 1 1 Canvas.init cexA 0 0 cex_box_nonempty
    (by intro hcon; have h5 := hcon.2.2.2.2; norm_num [Canvas.init] at h5)
    ⟨cex_inBox, by rw [cex_effA]; norm_num⟩]
  rw [cex_effA]
  norm_num [Canvas.init]

lemma cex_stepA_img (ch : Fin 3) : (splatStep 1 1 Canvas.init cexA).img 0 0 ch = 0 := by
  rw [splatStep_img_update 1 1 Canvas.init cexA 0 0 ch cex_box_nonempty
    (by intro hcon; have h5 := hcon.2.2.2.2; norm_num [Canvas.init] at h5)
    ⟨cex_inBox, by rw [cex_effA]; norm_num⟩]
  norm_num [Canvas.init, cexA]

lemma cexNC_stepA_alpha : (splatStepNC 1 1 Canvas.init cexA).alpha 0 0 = 96 / 100 := by
  rw [splatStepNC_alpha_update 1 1 Canvas.init cexA 0 0 cex_box_nonempty
    ⟨cex_inBox, by rw [cex_effA]; norm_num⟩]
  rw [cex_effA]
  norm_num [Canvas.init]

lemma cexNC_stepA_img (ch : Fin 3) : (splatStepNC 1 1 Canvas.init cexA).img 0 0 ch = 0 := by
  rw [splatStepNC_img_update 1 1 Canvas.init cexA 0 0 ch cex_box_nonempty
    ⟨cex_inBox, by rw [cex_effA]; norm_num⟩]
  norm_num [Canvas.init, cexA]

/-- C2 counterexample: on the two-splat input `[cexA, cexB]` over a 1 × 1
canvas, the compositor with the early-exit check produces final pixel value
0 at the only pixel, while the compositor without the check produces 9: the
check skips `cexB` entirely because `alpha_buf[0, 0] = 0.96 > 0.95`, losing
a contribution of `0.0384 > 0.001` that survives the negligible-contribution
threshold and the final quantization. -/
theorem early_exit_changes_final_image :
    finalizePix (compose 1 1 [cexA, cexB]) 0 0 0 ≠
    finalizePix (composeNC 1 1 [cexA, cexB]) 0 0 0 := by
  have hc : compose 1 1 [cexA, cexB] =
      splatStep 1 1 (splatStep 1 1 Canvas.init cexA) cexB := rfl
  have hn : composeNC 1 1 [cexA, cexB] =
      splatStepNC 1 1 (splatStepNC 1 1 Canvas.init cexA) cexB := rfl
  -- with the check: the second splat is skipped entirely
  have hskip : splatStep 1 1 (splatStep 1 1 Canvas.init cexA) cexB =
      splatStep 1 1 Canvas.init cexA := by
    apply splatStep_skip_opaque
    refine ⟨by norm_num [cexB], by norm_num [cexB], by norm_num [cexB], by norm_num [cexB], ?_⟩
    show (0.95 : ℝ) < (splatStep 1 1 Canvas.init cexA).alpha cexB.cy cexB.cx
    have : cexB.cy = 0 ∧ cexB.cx = 0 := by constructor <;> rfl
    rw [this.1, this.2, cex_stepA_alpha]
    norm_num
  have hL : finalizePix (compose 1 1 [cexA, cexB]) 0 0 0 = 0 := by
    rw [hc, hskip, finalizePix, cex_stepA_img 0]
    norm_num [clip, truncTZ]
  -- without the check: the second splat still contributes 0.0384 at (0,0)
  have heffB : effective cexB (splatStepNC 1 1 Canvas.init cexA) 0 0 = 24 / 625 := by
    rw [effective]
    have hz : (0 : ℤ) - cexB.cy = 0 ∧ (0 : ℤ) - cexB.cx = 0 := by constructor <;> rfl
    rw [hz.1, hz.2, cexNC_stepA_alpha]
    norm_num [cexB, gauss_center]
  have hboxB : ¬(min 1 (cexB.cy + cexB.r + 1) ≤ max 0 (cexB.cy - cexB.r) ∨
      min 1 (cexB.cx + cexB.r + 1) ≤ max 0 (cexB.cx - cexB.r)) := by
    norm_num [cexB]
  have hinB : inBox 1 1 cexB 0 0 := by
    refine ⟨?_, ?_, ?_, ?_⟩ <;> norm_num [cexB]
  have hR : finalizePix (composeNC 1 1 [cexA, cexB]) 0 0 0 = 9 := by
    rw [hn, finalizePix,
      splatStepNC_img_update 1 1 (splatStepNC 1 1 Canvas.init cexA) cexB 0 0 0 hboxB
        ⟨hinB, by rw [heffB]; norm_num⟩,
      cexNC_stepA_img 0, heffB]
    have hcB : cexB.c 0 = 1 := rfl
    rw [hcB]
    have hclip : clip (0 + 1 * (24 / 625)) 0 1 = 24 / 625 := by
      rw [clip]
      norm_num
    rw [hclip, truncTZ, if_pos (by norm_num : (0 : ℝ) ≤ 24 / 625 * 255)]
    rw [show (24 / 625 * 255 : ℝ) = 6120 / 625 by norm_num]
    rw [Int.floor_eq_iff]
    constructor <;> norm_num
  rw [hL, hR]
  norm_num

/- ------------------------------------------------------------------ -/
/- Full render pipeline (renderCore)                                   -/
/- ------------------------------------------------------------------ -/

/-- `np.percentile(a, q)` with the default linear interpolation: sort
ascending, form the virtual index `v = q/100 * (n-1)`, and interpolate
linearly between the neighbouring sorted entries.  On an empty array numpy
raises `IndexError` ("cannot do a non-empty take from an empty axes"),
modelled as `none`. -/
def npPercentile (l : List ℝ) (q : ℝ) : Option ℝ :=
  if l = [] then none
  else
    let s := l.insertionSort (· ≤ ·)
    let v : ℝ := q / 100 * ((l.length : ℝ) - 1)
    let i : ℕ := ⌊v⌋.toNat
    let lo := s.getD i 0
    let hi := s.getD (i + 1) lo
    some (lo + (v - ⌊v⌋) * (hi - lo))

/-- Scene transform (lines 52-62): if the angle is nonzero, rotate the
positions about the vertical axis through the centroid of the (post-filter)
points; `np.radians` converts degrees to radians. -/
def rotateY (angle : ℝ) (l : List Splat) : List Splat :=
  if angle = 0 then l
  else
    let n : ℝ := l.length
    let cx := (l.map Splat.x).sum / n
    let cy := (l.map Splat.y).sum / n
    let cz := (l.map Splat.z).sum / n
    let rad := angle * Real.pi / 180
    l.map fun s =>
      { s with
        x := (s.x - cx) * Real.cos rad + (s.z - cz) * Real.sin rad + cx
        y := (s.y - cy) + cy
        z := -(s.x - cx) * Real.sin rad + (s.z - cz) * Real.cos rad + cz }

/-- Projector clipping predicate (lines 106-107): keep splats whose pixel
center is within `max_r = 12` of the canvas on both axes. -/
def validP (w h : ℤ) (p : PSplat) : Prop :=
  -12 ≤ p.cx ∧ p.cx < w + 12 ∧ -12 ≤ p.cy ∧ p.cy < h + 12

/-- Depth sorter (lines 112-116): `order = np.argsort(z)` applied to all
parallel arrays.  numpy's default sort kind (quicksort/introsort) produces
*some* permutation along which `z` is non-decreasing but documents no
stability guarantee; the model uses an insertion sort, which is one such
permutation. -/
def sortByZ (l : List PSplat) : List PSplat :=
  l.insertionSort fun a b => a.z ≤ b.z

/-- The exception exits of a render call, in the order the script can hit
them: `np.percentile` of an empty array raises `IndexError` (line 67);
`width / height` raises `ZeroDivisionError` when `height = 0` (line 82);
`np.zeros((height, width, 3))` raises `ValueError` for a negative dimension
(line 119). -/
inductive RenderErr where
  | emptyPercentile
  | intDivZero
  | negativeDims

/-- The finished 8-bit image handed to the external writer (line 169). -/
structure FinalImage where
  pix : ℤ → ℤ → Fin 3 → ℤ

/-- Robust scene bounds of the viewport framer (lines 66-76): the 0.5th and
99.5th percentiles of the x and y coordinate arrays, expanded on each side
by 10% of the span as padding.  `none` models the `IndexError` that the
first `np.percentile` call (line 67) raises on an empty point set. -/
def sceneBounds (xs ys : List ℝ) : Option Bounds :=
  match npPercentile xs 0.5, npPercentile xs 99.5,
      npPercentile ys 0.5, npPercentile ys 99.5 with
  | some xlo, some xhi, some ylo, some yhi =>
    let xpad := (xhi - xlo) * 0.1
    let ypad := (yhi - ylo) * 0.1
    some ⟨xlo - xpad, xhi + xpad, ylo - ypad, yhi + ypad⟩
  | _, _, _, _ => none

/-- The render pipeline of `render_splat` between the external PLY read and
the external PNG write (lines 27-168): decode, filter, rotate, percentile
bounds, padding, aspect correction, projection, clipping, depth sort,
compositing, finalization. -/
def renderCore (raw : List RawPoint) (w h : ℤ) (angle : ℝ) :
    Except RenderErr FinalImage :=
  let splats := rotateY angle (visFilter (raw.map decode))
  match sceneBounds (splats.map Splat.x) (splats.map Splat.y) with
  | none => .error .emptyPercentile
  | some b0 =>
  if h = 0 then .error .intDivZero
  else
    let b := fixAspect (w : ℝ) (h : ℝ) b0
    let ps := sortByZ ((splats.map (project w h b)).filter
      fun p => decide (validP w h p))
    if w < 0 ∨ h < 0 then .error .negativeDims
    else .ok ⟨fun y x ch => finalizePix (compose w h ps) y x ch⟩

/- ------------------------------------------------------------------ -/
/- Evaluation lemmas for the pipeline                                  -/
/- ------------------------------------------------------------------ -/

lemma npPercentile_of_ne_nil (l : List ℝ) (q : ℝ) (hl : l ≠ []) :
    ∃ v, npPercentile l q = some v := by
  rw [npPercentile, if_neg hl]
  exact ⟨_, rfl⟩

lemma npPercentile_singleton (a q : ℝ) : npPercentile [a] q = some a := by
  rw [npPercentile, if_neg (by simp)]
  norm_num [List.insertionSort, List.orderedInsert]

lemma sceneBounds_of_ne_nil (xs ys : List ℝ) (hx : xs ≠ []) (hy : ys ≠ []) :
    ∃ b, sceneBounds xs ys = some b := by
  obtain ⟨x1, hx1⟩ := npPercentile_of_ne_nil xs 0.5 hx
  obtain ⟨x2, hx2⟩ := npPercentile_of_ne_nil xs 99.5 hx
  obtain ⟨y1, hy1⟩ := npPercentile_of_ne_nil ys 0.5 hy
  obtain ⟨y2, hy2⟩ := npPercentile_of_ne_nil ys 99.5 hy
  simp only [sceneBounds, hx1, hx2, hy1, hy2]
  exact ⟨_, rfl⟩

lemma sceneBounds_nil : sceneBounds [] [] = none := by
  have h05 : npPercentile ([] : List ℝ) 0.5 = none := by rw [npPercentile, if_pos rfl]
  simp only [sceneBounds, h05]

lemma sceneBounds_single_zero : sceneBounds [(0 : ℝ)] [(0 : ℝ)] = some ⟨0, 0, 0, 0⟩ := by
  simp only [sceneBounds, npPercentile_singleton]
  norm_num

lemma rotateY_eq_nil_iff (angle : ℝ) (l : List Splat) :
    rotateY angle l = [] ↔ l = [] := by
  rw [rotateY]
  split_ifs
  · exact Iff.rfl
  · simp

/-- A canvas of zero width is never written to: every clipped bounding box
is empty. -/
lemma splatStep_zero_width (h : ℤ) (cv : Canvas) (s : PSplat) :
    splatStep 0 h cv s = cv := by
  rw [splatStep,
    if_pos (Or.inr (le_trans (min_le_left 0 (s.cx + s.r + 1)) (le_max_left 0 (s.cx - s.r))))]

lemma compose_zero_width (h : ℤ) (l : List PSplat) : compose 0 h l = Canvas.init := by
  rw [compose]
  induction l with
  | nil => rfl
  | cons s t ih =>
    rw [List.foldl_cons, splatStep_zero_width]
    exact ih

lemma finalizePix_init (y x : ℤ) (ch : Fin 3) : finalizePix Canvas.init y x ch = 0 := by
  rw [finalizePix]
  norm_num [Canvas.init, clip, truncTZ]

/- ------------------------------------------------------------------ -/
/- C3: degenerate scenes                                               -/
/- ------------------------------------------------------------------ -/

/-- C3 (amended): if at least one splat survives the opacity filter — the
zero-span bounding-box case included, since the `1e-8` epsilon guards every
division — and the requested dimensions are positive, the render completes
without error. -/
theorem render_ok_of_nonempty_survivors (raw : List RawPoint) (w h : ℤ) (angle : ℝ)
    (hne : visFilter (raw.map decode) ≠ []) (hw : 0 ≤ w) (hh : 0 < h) :
    ∃ img, renderCore raw w h angle = .ok img := by
  have hsn : rotateY angle (visFilter (raw.map decode)) ≠ [] := by
    intro hcon
    exact hne ((rotateY_eq_nil_iff angle _).mp hcon)
  have hx : (rotateY angle (visFilter (raw.map decode))).map Splat.x ≠ [] := by
    simpa using hsn
  have hy : (rotateY angle (visFilter (raw.map decode))).map Splat.y ≠ [] := by
    simpa using hsn
  obtain ⟨b0, hb0⟩ := sceneBounds_of_ne_nil _ _ hx hy
  have hwh : ¬(w < 0 ∨ h < 0) := by omega
  simp only [renderCore, hb0, if_neg hh.ne', if_neg hwh]
  exact ⟨_, rfl⟩

/-- The all-zero raw point: opacity `sigmoid(0) = 1/2 > 0.02`, so it
survives the filter. -/
def originPoint : RawPoint := ⟨0, 0, 0, 0, 0, 0, 0, 0, 0, 0⟩

lemma originPoint_opacity : (decode originPoint).opacity = 1 / 2 := by
  show (1 : ℝ) / (1 + exp (-(0 : ℝ))) = 1 / 2
  norm_num

lemma visFilter_originPoint :
    visFilter ([originPoint].map decode) = [decode originPoint] := by
  rw [List.map_singleton, visFilter, List.filter_cons, List.filter_nil]
  rw [if_pos (by rw [decide_eq_true_eq, originPoint_opacity]; norm_num)]

/-- C3 witness: the amended theorem applied to the single surviving
all-zero point on a 2 × 2 canvas. -/
theorem render_ok_of_nonempty_survivors_witness :
    (visFilter ([originPoint].map decode) ≠ [] ∧ (0 : ℤ) ≤ 2 ∧ (0 : ℤ) < 2) ∧
    ∃ img, renderCore [originPoint] 2 2 0 = .ok img := by
  have hne : visFilter ([originPoint].map decode) ≠ [] := by
    rw [visFilter_originPoint]
    exact List.cons_ne_nil _ _
  exact ⟨⟨hne, by norm_num, by norm_num⟩,
    render_ok_of_nonempty_survivors [originPoint] 2 2 0 hne (by norm_num) (by norm_num)⟩

/-- A raw point with opacity logit `-4`: decoded opacity
`1 / (1 + e^4) ≈ 0.018 ≤ 0.02`, so the filter drops it. -/
def lowOpacityPoint : RawPoint := ⟨0, 0, 0, 0, 0, 0, -4, 0, 0, 0⟩

lemma exp_four_ge : (49 : ℝ) ≤ exp 4 := by
  have h1 : (2.7182818283 : ℝ) < exp 1 := exp_one_gt_d9
  have h4 : ((2.7182818283 : ℝ)) ^ 4 < (exp 1) ^ 4 :=
    pow_lt_pow_left₀ h1 (by norm_num) (by norm_num)
  have he : exp (4 : ℝ) = (exp 1) ^ 4 := by
    rw [← exp_nat_mul]
    norm_num
  rw [he]
  nlinarith

lemma lowOpacityPoint_dropped :
    ¬ ((0.02 : ℝ) < (decode lowOpacityPoint).opacity) := by
  have heq : (decode lowOpacityPoint).opacity = 1 / (1 + exp 4) := by
    show (1 : ℝ) / (1 + exp (-(-4 : ℝ))) = 1 / (1 + exp 4)
    norm_num
  rw [heq, not_lt]
  rw [div_le_iff₀ (by positivity)]
  nlinarith [exp_four_ge]

/-- C3 counterexample: on an input whose only splat is dropped by the
opacity filter, the render does *not* produce a black canvas — it aborts
with the error numpy raises for a percentile of an empty array (line 67),
refuting "must not crash ... and writes it normally" for the zero-survivor
case. -/
theorem render_zero_survivors_errors :
    renderCore [lowOpacityPoint] 4 3 0 = .error .emptyPercentile := by
  have hvis : visFilter ([lowOpacityPoint].map decode) = [] := by
    rw [List.map_singleton, visFilter, List.filter_cons, List.filter_nil]
    rw [if_neg (by rw [decide_eq_true_eq]; exact lowOpacityPoint_dropped)]
  have hrot : rotateY 0 (visFilter ([lowOpacityPoint].map decode)) = [] := by
    rw [hvis, rotateY, if_pos rfl]
  simp only [renderCore, hrot, List.map_nil, sceneBounds_nil]

/- ------------------------------------------------------------------ -/
/- C8: dimension handling                                              -/
/- ------------------------------------------------------------------ -/

/-- C8 (amended): the script performs no dimension validation.  When
`height = 0` (and at least one splat survives the filter, so the percentile
calls succeed first), the render aborts only at the aspect-ratio
computation `width / height` (line 82) with a division-by-zero — after the
whole decode/filter/percentile work — and no output is written. -/
theorem render_zero_height_divzero (raw : List RawPoint) (w : ℤ) (angle : ℝ)
    (hne : visFilter (raw.map decode) ≠ []) :
    renderCore raw w 0 angle = .error .intDivZero := by
  have hsn : rotateY angle (visFilter (raw.map decode)) ≠ [] := by
    intro hcon
    exact hne ((rotateY_eq_nil_iff angle _).mp hcon)
  have hx : (rotateY angle (visFilter (raw.map decode))).map Splat.x ≠ [] := by
    simpa using hsn
  have hy : (rotateY angle (visFilter (raw.map decode))).map Splat.y ≠ [] := by
    simpa using hsn
  obtain ⟨b0, hb0⟩ := sceneBounds_of_ne_nil _ _ hx hy
  simp only [renderCore, hb0]
  simp

/-- C8 witness: the amended theorem applied to the single surviving
all-zero point with `width = 4`, `height = 0`. -/
theorem render_zero_height_divzero_witness :
    (visFilter ([originPoint].map decode) ≠ []) ∧
    renderCore [originPoint] 4 0 0 = .error .intDivZero := by
  have hne : visFilter ([originPoint].map decode) ≠ [] := by
    rw [visFilter_originPoint]
    exact List.cons_ne_nil _ _
  exact ⟨hne, render_zero_height_divzero [originPoint] 4 0 hne⟩

/-- C8 counterexample: with `width = 0` (and `height = 5`) the render does
*not* fail at all, let alone immediately with a dedicated dimension error:
the whole pipeline runs — every splat's clipped bounding box is empty on a
zero-width canvas — and a zero-width all-black image is handed to the
external writer. -/
theorem render_zero_width_completes :
    renderCore [originPoint] 0 5 0 = .ok ⟨fun _ _ _ => 0⟩ := by
  have hrot : rotateY 0 (visFilter ([originPoint].map decode)) = [decode originPoint] := by
    rw [visFilter_originPoint, rotateY, if_pos rfl]
  have hmx : [decode originPoint].map Splat.x = [(0 : ℝ)] := rfl
  have hmy : [decode originPoint].map Splat.y = [(0 : ℝ)] := rfl
  simp only [renderCore, hrot, hmx, hmy, sceneBounds_single_zero]
  rw [if_neg (by norm_num : ¬((5 : ℤ) = 0))]
  rw [if_neg (by norm_num : ¬((0 : ℤ) < 0 ∨ (5 : ℤ) < 0))]
  congr 1
  rw [FinalImage.mk.injEq]
  funext y x ch
  rw [compose_zero_width, finalizePix_init]

/- ------------------------------------------------------------------ -/
/- C7 counterexample: the framer can shrink the horizontal axis        -/
/- ------------------------------------------------------------------ -/

lemma npPercentile_pair (d q : ℝ) (hd : 0 ≤ d) (hq0 : 0 ≤ q / 100) (hq1 : q / 100 < 1) :
    npPercentile [0, d] q = some (q / 100 * d) := by
  rw [npPercentile, if_neg (by simp)]
  have hsort : List.insertionSort (· ≤ ·) [(0 : ℝ), d] = [0, d] := by
    simp [List.insertionSort, List.orderedInsert, hd]
  have hlen : ((List.length [(0 : ℝ), d] : ℕ) : ℝ) = 2 := by norm_num
  dsimp only
  rw [hsort, hlen]
  have harg : q / 100 * ((2 : ℝ) - 1) = q / 100 := by ring
  rw [harg]
  have hfl : ⌊q / 100⌋ = 0 := Int.floor_eq_zero_iff.mpr (Set.mem_Ico.mpr ⟨hq0, hq1⟩)
  rw [hfl]
  norm_num [List.getD]

/-- Horizontal distance of the C7 counterexample's two scene points: chosen
so the padded horizontal span `1.188 * cexDx` is exactly `1 + 1e-8`. -/
def cexDx : ℝ := (10 ^ 8 + 1) / (1188 * 10 ^ 5)

/-- Vertical distance of the C7 counterexample's two scene points: chosen
so the padded vertical span `1.188 * cexDy` is exactly `1`. -/
def cexDy : ℝ := 250 / 297

/-- The world window the framer computes for the two-point scene
`(0,0), (cexDx, cexDy)`: the 0.5th/99.5th percentiles of each axis are
`0.005·d` and `0.995·d`, and the 10% padding widens them to
`[-0.094·d, 1.094·d]`. -/
def cexBounds : Bounds :=
  ⟨-(47 / 500) * cexDx, (547 / 500) * cexDx, -(47 / 500) * cexDy, (547 / 500) * cexDy⟩

/-- C7 counterexample: the framer can *shrink* an axis.  For the two-point
scene `(0,0), (cexDx, cexDy)` the percentile-and-padding stage produces the
world window `cexBounds`, whose horizontal span is `1 + 1e-8` and vertical
span is `1`.  With a square image (`w = h = 1`) the branch test
`scene_aspect > image_aspect` compares `(1 + 1e-8)/(1 + 1e-8) = 1` against
`1` and fails, so the *horizontal* bounds are "grown" to the span
`scene_h * image_aspect = 1 < 1 + 1e-8`: the x-axis strictly shrinks,
refuting "the framer expands whichever world axis is too short, never
shrinking one". -/
theorem fixAspect_shrinks_x_axis :
    sceneBounds [0, cexDx] [0, cexDy] = some cexBounds ∧
    (fixAspect 1 1 cexBounds).xmax - (fixAspect 1 1 cexBounds).xmin <
      cexBounds.xmax - cexBounds.xmin := by
  constructor
  · have hdx : (0 : ℝ) ≤ cexDx := by norm_num [cexDx]
    have hdy : (0 : ℝ) ≤ cexDy := by norm_num [cexDy]
    have p1 : npPercentile [0, cexDx] 0.5 = some (0.5 / 100 * cexDx) :=
      npPercentile_pair cexDx 0.5 hdx (by norm_num) (by norm_num)
    have p2 : npPercentile [0, cexDx] 99.5 = some (99.5 / 100 * cexDx) :=
      npPercentile_pair cexDx 99.5 hdx (by norm_num) (by norm_num)
    have p3 : npPercentile [0, cexDy] 0.5 = some (0.5 / 100 * cexDy) :=
      npPercentile_pair cexDy 0.5 hdy (by norm_num) (by norm_num)
    have p4 : npPercentile [0, cexDy] 99.5 = some (99.5 / 100 * cexDy) :=
      npPercentile_pair cexDy 99.5 hdy (by norm_num) (by norm_num)
    simp only [sceneBounds, p1, p2, p3, p4, Option.some.injEq, cexBounds, Bounds.mk.injEq]
    refine ⟨by ring, by ring, by ring, by ring⟩
  · norm_num [fixAspect, cexBounds, cexDx, cexDy, eps]

/- ------------------------------------------------------------------ -/
/- The invariant hypotheses hold on every real pipeline input          -/
/- ------------------------------------------------------------------ -/

lemma mem_sortByZ (p : PSplat) (l : List PSplat) : p ∈ sortByZ l ↔ p ∈ l :=
  (List.perm_insertionSort _ l).mem_iff

lemma rotateY_preserves_opacity_color (angle : ℝ) (l : List Splat) (s : Splat)
    (hs : s ∈ rotateY angle l) :
    ∃ t ∈ l, t.opacity = s.opacity ∧ t.color = s.color := by
  rw [rotateY] at hs
  split_ifs at hs
  · exact ⟨s, hs, rfl, rfl⟩
  · dsimp only at hs
    obtain ⟨t, ht, hts⟩ := List.mem_map.mp hs
    subst hts
    exact ⟨t, ht, rfl, rfl⟩

/-- Every splat the pipeline actually hands to the compositor (decoded,
filtered, rotated, projected, clipped and sorted) has opacity and colors in
`[0, 1]` — so the hypotheses of the two compositor-invariant theorems are
satisfied on every render call, for every raw input. -/
lemma pipeline_splats_bounded (raw : List RawPoint) (angle : ℝ) (w h : ℤ) (b : Bounds) :
    ∀ p ∈ sortByZ (((rotateY angle (visFilter (raw.map decode))).map
        (project w h b)).filter fun q => decide (validP w h q)),
      (0 ≤ p.a ∧ p.a ≤ 1) ∧ ∀ ch, 0 ≤ p.c ch ∧ p.c ch ≤ 1 := by
  intro p hp
  rw [mem_sortByZ] at hp
  have hp2 := List.mem_of_mem_filter hp
  obtain ⟨s, hs, hsp⟩ := List.mem_map.mp hp2
  subst hsp
  obtain ⟨t, ht, hop, hcol⟩ := rotateY_preserves_opacity_color angle _ s hs
  have ht2 := List.mem_of_mem_filter ht
  obtain ⟨q, _hq, hqt⟩ := List.mem_map.mp ht2
  subst hqt
  constructor
  · show 0 ≤ s.opacity ∧ s.opacity ≤ 1
    rw [← hop]
    exact decode_opacity_bounds q
  · intro ch
    show 0 ≤ s.color ch ∧ s.color ch ≤ 1
    rw [← hcol]
    exact decode_color_bounds q ch
